import Mathlib

/-!
Shallow embedding of the kernelvex tracking-wheel odometry engine
(`src/odom/wheel.rs`, with supporting types from `src/util/si.rs`,
`src/util/utils.rs` and `src/odom/pose.rs`).

f64 quantities are modelled as real numbers. A fallible sensor read is an
`Option ℝ` (`none` = the hardware call returned `Err`); a Rust `panic!`
(e.g. `Result::unwrap` on an `Err`) is modelled by the `panic` constructor
of the tick-outcome type. The background fusion task of `TrackingRig` is
modelled as a step function on an explicit loop state, driven by one
`TickInput` per loop iteration.
-/

namespace Kernelvex

open Real

/-- IEEE-754 round-to-nearest-integer with ties to even, on the exact real
value (the rounding mode used by `libm::remainder`). -/
noncomputable def roundHalfEven (q : ℝ) : ℤ :=
  if Int.fract q < 1 / 2 then ⌊q⌋
  else if 1 / 2 < Int.fract q then ⌊q⌋ + 1
  else if Even ⌊q⌋ then ⌊q⌋ else ⌊q⌋ + 1

/-- `libm::remainder(x, y)`: the IEEE 754 remainder `x - y·n` where `n` is
`x / y` rounded to the nearest integer, ties to even. -/
noncomputable def ieeeRemainder (x y : ℝ) : ℝ := x - y * roundHalfEven (x / y)

/-- `QAngle::remainder` (`src/util/si.rs:974`): delegates to
`libm::remainder` on the underlying radian values. -/
noncomputable def QAngle.remainder (a b : ℝ) : ℝ := ieeeRemainder a b

/-- `QLength::from_inches` (`src/util/si.rs:650`): inches to meters via
centimeters, `ic * 2.54 / 100`. -/
noncomputable def QLength.fromInches (ic : ℝ) : ℝ := ic * 2.54 / 100

/-- `OmniWheel` (`src/odom/wheel.rs:58`): wheel variants; the payload of
`custom` is a diameter in meters. -/
inductive OmniWheel where
  | omni275
  | omni325
  | omni4
  | anti275
  | anti325
  | anti4
  | custom (d : ℝ)

/-- `OmniWheel::size` (`src/odom/wheel.rs:82`): the wheel diameter in
meters. -/
noncomputable def OmniWheel.size : OmniWheel → ℝ
  | .omni275 => QLength.fromInches 2.75
  | .omni325 => QLength.fromInches 3.25
  | .omni4 => QLength.fromInches 4.125
  | .anti275 => QLength.fromInches 2.75
  | .anti325 => QLength.fromInches 3.25
  | .anti4 => QLength.fromInches 4
  | .custom d => d

/-- `TrackingWheel::distance` (`src/odom/wheel.rs:173`), given a successful
encoder position read of `positionRad` radians:
`circumference = size * π`, then
`distance = circumference * π * rotations.as_radians() / gearing`
(note `QAngle::from_turns(p.as_turns()).as_radians() = positionRad`). -/
noncomputable def TrackingWheel.distance (wheel : OmniWheel) (gearing positionRad : ℝ) : ℝ :=
  wheel.size * π * π * positionRad / gearing

/-- `TrackingWheel::distance` including the fallible encoder read: the code
calls `encoder.position().unwrap()`, so a failed read (`none`) panics
rather than returning an error; a successful read yields the
`TrackingWheel.distance` value. -/
noncomputable def TrackingWheel.distanceRead (wheel : OmniWheel) (gearing : ℝ)
    (encoderPos : Option ℝ) : Option ℝ :=
  encoderPos.map (fun p => TrackingWheel.distance wheel gearing p)

/-- `Pose` (`src/odom/pose.rs`): the homogeneous matrix stores `x` at m13
and `y` at m23 and the heading is kept alongside; only those three fields
are observable through `Pose::new`, `position()` and `heading()`. -/
structure Pose where
  x : ℝ
  y : ℝ
  heading : ℝ

/-- `HeadingError` (`src/odom/wheel.rs:452`). -/
inductive HeadingError where
  | imu (fallback : Option ℝ)
  | rotary

/-- `TrackingData` (`src/odom/wheel.rs:442`): the shared snapshot. -/
structure TrackingData where
  pose : Pose
  rawHeading : ℝ
  headingOffset : ℝ
  forwardTravel : ℝ
  linearVelocity : ℝ
  angularVelocity : ℝ

/-- `wheel_heading` (`src/odom/wheel.rs:503`): heading estimate from a
parallel forward-wheel pair, `(right_travel - left_travel) / track_width`
with `track_width = |right_offset - left_offset|`; `none` when the track
width is zero. `travels` are the current per-wheel `distance()` readings
in meters and `offsets` the per-wheel offsets in meters. -/
noncomputable def wheelHeading {N : ℕ} (travels offsets : Fin N → ℝ) (l r : Fin N) :
    Option ℝ :=
  let trackWidth := |offsets r - offsets l|
  if trackWidth = 0 then none
  else some ((travels r - travels l) / trackWidth)

/-- `find_parallel_forward_indices` (`src/odom/wheel.rs:458`): first pair
`i < j` of forward wheels whose offsets sum to within 0.5 m of zero,
returned ordered (smaller offset first). -/
noncomputable def findParallelForwardIndices {N : ℕ} (offsets : Fin N → ℝ) :
    Option (Fin N × Fin N) :=
  (List.finRange N).findSome? fun i =>
    (List.finRange N).findSome? fun j =>
      if i < j ∧ |offsets i + offsets j| ≤ 0.5 then
        some (if offsets i < offsets j then (i, j) else (j, i))
      else none

/-- `compute_raw_heading` (`src/odom/wheel.rs:477`). The `imu` argument is
`some readResult` when the sensor is present (and still trusted) and
`none` when it is absent/distrusted; `readResult` is this tick's
`imu.heading()` in radians, `none` on a failed read. On a successful imu
read the code returns `QAngle::from_degrees(h.as_degrees() * -1.0)`,
i.e. `-h`. -/
noncomputable def computeRawHeading {N : ℕ} (imu : Option (Option ℝ))
    (parallelIndices : Option (Fin N × Fin N)) (travels offsets : Fin N → ℝ) :
    Except HeadingError ℝ :=
  match imu with
  | some headingRead =>
    match headingRead with
    | some h => .ok (-h)
    | none =>
      .error (.imu (parallelIndices.bind fun p => wheelHeading travels offsets p.1 p.2))
  | none =>
    match parallelIndices with
    | some (l, r) =>
      match wheelHeading travels offsets l r with
      | some h => .ok h
      | none => .error .rotary
    | none => .error (.imu none)

/-- Static configuration of a `TrackingRig` with `N` forward and `U`
sideways wheels: the per-wheel offsets (meters) and whether an inertial
sensor was supplied at construction. -/
structure RigConfig (N U : ℕ) where
  forwardOffsets : Fin N → ℝ
  sidewaysOffsets : Fin U → ℝ
  hasImu : Bool

/-- `parallel_indices` as computed once in `TrackingRig::new`
(`src/odom/wheel.rs:246`). -/
noncomputable def RigConfig.parallelIndices {N U : ℕ} (cfg : RigConfig N U) :
    Option (Fin N × Fin N) :=
  findParallelForwardIndices cfg.forwardOffsets

/-- Mutable task-local state of `TrackingRig::task`
(`src/odom/wheel.rs:307`). `imuTrusted` mirrors the task-local
`imu : Option<InertialSensor>` (`true` = `Some`); the rest are the `prev_*`
accumulators, with `prevTime` the wall-clock instant last stored in
`prev_time`. -/
structure LoopState (N U : ℕ) where
  imuTrusted : Bool
  prevForward : Fin N → ℝ
  prevSideways : Fin U → ℝ
  prevRawHeading : ℝ
  prevForwardTravel : ℝ
  prevTime : ℝ

/-- The sensor values offered to one iteration of the fusion loop:
per-wheel `distance()` readings in meters (`none` = the encoder read
fails, which the code `unwrap`s), the imu heading and gyro-rate reads, and
the current wall-clock time. Reads of the same wheel within one tick
return the same value. -/
structure TickInput (N U : ℕ) where
  forwardRead : Fin N → Option ℝ
  sidewaysRead : Fin U → Option ℝ
  imuHeading : Option ℝ
  imuGyro : Option ℝ
  now : ℝ

/-- Reading every wheel of one axis: succeeds iff every individual read
does; the code panics on the first failure. -/
def readAll {n : ℕ} (reads : Fin n → Option ℝ) : Option (Fin n → ℝ) :=
  if h : ∀ i, (reads i).isSome then some (fun i => (reads i).get (h i)) else none

/-- `unit_chord` (`src/odom/wheel.rs:351`): `2 sin(delta_heading / 2)`. -/
noncomputable def unitChord (δ : ℝ) : ℝ := 2 * Real.sin (δ / 2)

/-- Per-wheel body-frame contribution (`src/odom/wheel.rs:364`): the raw
delta when `delta_heading == 0`, else
`unit_chord * (delta / delta_heading + offset)`. -/
noncomputable def wheelLocalComponent (δ uc delta offset : ℝ) : ℝ :=
  if δ = 0 then delta else uc * (delta / δ + offset)

/-- Mean body-frame displacement of one wheel axis
(`src/odom/wheel.rs:353-395`): sum of the per-wheel components divided by
the wheel count, 0 when the axis has no wheels. -/
noncomputable def localOf {n : ℕ} (δ : ℝ) (travels prev offsets : Fin n → ℝ) : ℝ :=
  if 0 < n then
    (∑ i, wheelLocalComponent δ (unitChord δ) (travels i - prev i) (offsets i)) / n
  else 0

/-- `avg_heading` (`src/odom/wheel.rs:348`):
`raw_heading + delta_heading * 0.5 + heading_offset`. -/
noncomputable def avgHeadingOf (raw δ offset : ℝ) : ℝ := raw + δ * 0.5 + offset

/-- `delta_heading` (`src/odom/wheel.rs:347`):
`(raw_heading - prev_raw_heading).remainder(QAngle::TAU)`. -/
noncomputable def deltaHeading (raw prev : ℝ) : ℝ :=
  QAngle.remainder (raw - prev) (2 * π)

/-- Published angular velocity (`src/odom/wheel.rs:413`): if the (possibly
just-demoted) imu is still present, `gyro_rate().ok()...unwrap_or(0.0)`;
otherwise `delta_heading / dt` guarded by `dt > 0`. -/
noncomputable def angularVelocityOf (imuNow : Bool) (gyro : Option ℝ) (δ dt : ℝ) : ℝ :=
  if imuNow then gyro.getD 0
  else if 0 < dt then δ / dt else 0

/-- Outcome of one loop iteration: `panic` (a wheel read `unwrap` failed),
`halt` (the `return` on an unrecoverable heading loss), `skip` (a
`continue`, carrying the possibly-demoted imu state), or `publish` of the
updated task state and snapshot. -/
inductive TickOutcome (N U : ℕ) where
  | panic
  | halt
  | skip (s' : LoopState N U)
  | publish (out : LoopState N U × TrackingData)

/-- The tail of a successful tick (`src/odom/wheel.rs:347-437`): given the
wheel travels read this tick, the resolved `raw_heading` and the imu
presence after heading resolution, compute the updated task state and the
snapshot that is published. -/
noncomputable def publishResult {N U : ℕ} (cfg : RigConfig N U) (inp : TickInput N U)
    (s : LoopState N U) (d : TrackingData) (fTravels : Fin N → ℝ) (sTravels : Fin U → ℝ)
    (raw : ℝ) (imuNow : Bool) : LoopState N U × TrackingData :=
  let δ := deltaHeading raw s.prevRawHeading
  let avg := avgHeadingOf raw δ d.headingOffset
  let localX := localOf δ fTravels s.prevForward cfg.forwardOffsets
  let localY := localOf δ sTravels s.prevSideways cfg.sidewaysOffsets
  let dt := inp.now - s.prevTime
  let forwardTravel := if 0 < N then (∑ i, fTravels i) / N else s.prevForwardTravel
  let linearVelocity := if 0 < dt then (forwardTravel - s.prevForwardTravel) / dt else 0
  let angularVelocity := angularVelocityOf imuNow inp.imuGyro δ dt
  let dx := localX * Real.cos avg - localY * Real.sin avg
  let dy := localX * Real.sin avg + localY * Real.cos avg
  ({ imuTrusted := imuNow
     prevForward := fTravels
     prevSideways := sTravels
     prevRawHeading := raw
     prevForwardTravel := forwardTravel
     prevTime := inp.now },
   { pose := ⟨d.pose.x + dx, d.pose.y + dy, raw + d.headingOffset⟩
     rawHeading := raw
     headingOffset := d.headingOffset
     forwardTravel := forwardTravel
     linearVelocity := linearVelocity
     angularVelocity := angularVelocity })

/-- One iteration of the fusion loop (`src/odom/wheel.rs:320-437`): read
all wheels (panicking on a failed read), resolve the heading, and either
halt, skip the tick, or publish a new snapshot. -/
noncomputable def tickStep {N U : ℕ} (cfg : RigConfig N U) (inp : TickInput N U)
    (s : LoopState N U) (d : TrackingData) : TickOutcome N U :=
  match readAll inp.forwardRead, readAll inp.sidewaysRead with
  | some fTravels, some sTravels =>
    let imuArg : Option (Option ℝ) := if s.imuTrusted then some inp.imuHeading else none
    match computeRawHeading imuArg cfg.parallelIndices fTravels cfg.forwardOffsets with
    | .ok h => .publish (publishResult cfg inp s d fTravels sTravels h s.imuTrusted)
    | .error (.imu (some fallback)) =>
      .publish (publishResult cfg inp s d fTravels sTravels fallback false)
    | .error (.imu none) => .halt
    | .error .rotary =>
      if s.imuTrusted then .skip { s with imuTrusted := false } else .skip s
  | _, _ => .panic

/-- Lifecycle mode of the rig's background task. -/
inductive RigMode where
  | running
  | halted
  | panicked
deriving DecidableEq

/-- Whole-system state: task mode, task-local loop state, and the shared
snapshot readable through `pose()` / `linear_velocity()` /
`angular_velocity()`. -/
structure SysState (N U : ℕ) where
  mode : RigMode
  loop : LoopState N U
  data : TrackingData

/-- One tick at system level: a halted or panicked task never runs again
and the shared snapshot stays what it last was. -/
noncomputable def sysStep {N U : ℕ} (cfg : RigConfig N U) (inp : TickInput N U)
    (st : SysState N U) : SysState N U :=
  match st.mode with
  | .halted => st
  | .panicked => st
  | .running =>
    match tickStep cfg inp st.loop st.data with
    | .panic => { st with mode := .panicked }
    | .halt => { st with mode := .halted }
    | .skip s' => { st with loop := s' }
    | .publish out => { mode := .running, loop := out.1, data := out.2 }

/-- Running the fusion loop over a list of tick inputs. -/
noncomputable def sysRun {N U : ℕ} (cfg : RigConfig N U) (st : SysState N U) :
    List (TickInput N U) → SysState N U
  | [] => st
  | inp :: rest => sysRun cfg (sysStep cfg inp st) rest

/-- `TrackingRig::new` (`src/odom/wheel.rs:236`): fails (compile-time
assert) when `N = 0`, panics when neither an imu nor a parallel forward
pair is available, and otherwise spawns the task with the initial state.
`initForward` / `initSideways` are the construction-time wheel readings,
`initImuHeading` the construction-time imu read (when an imu is supplied),
`t0` the construction instant. -/
noncomputable def rigNew {N U : ℕ} (origin : Pose) (cfg : RigConfig N U)
    (initForward : Fin N → ℝ) (initSideways : Fin U → ℝ)
    (initImuHeading : Option ℝ) (t0 : ℝ) : Option (SysState N U) :=
  if N = 0 then none
  else if cfg.hasImu = false ∧ cfg.parallelIndices = none then none
  else
    let imuArg : Option (Option ℝ) := if cfg.hasImu then some initImuHeading else none
    let initialHeading :=
      (computeRawHeading imuArg cfg.parallelIndices initForward cfg.forwardOffsets).toOption.getD 0
    let initialForwardTravel : ℝ := if 0 < N then 0 else (∑ i, initForward i) / N
    some
      { mode := .running
        loop :=
          { imuTrusted := cfg.hasImu
            prevForward := initForward
            prevSideways := initSideways
            prevRawHeading := initialHeading
            prevForwardTravel := initialForwardTravel
            prevTime := t0 }
        data :=
          { pose := origin
            rawHeading := initialHeading
            headingOffset := origin.heading
            forwardTravel := initialForwardTravel
            linearVelocity := 0
            angularVelocity := 0 } }

/-- All-zero initial snapshot used by the concrete scenarios (origin pose
`(0, 0, 0)`). -/
noncomputable def dataZero : TrackingData :=
  { pose := ⟨0, 0, 0⟩, rawHeading := 0, headingOffset := 0, forwardTravel := 0,
    linearVelocity := 0, angularVelocity := 0 }

/-- Task state for a one-forward-wheel rig: imu trust flag `b`, previous
raw heading `h0`, all accumulators zero. -/
noncomputable def loopOne (b : Bool) (h0 : ℝ) : LoopState 1 0 :=
  { imuTrusted := b, prevForward := fun _ => 0, prevSideways := fun i => i.elim0,
    prevRawHeading := h0, prevForwardTravel := 0, prevTime := 0 }

/-- Task state for a two-forward-wheel rig: imu trust flag `b`, all
accumulators zero. -/
noncomputable def loopPair (b : Bool) : LoopState 2 0 :=
  { imuTrusted := b, prevForward := fun _ => 0, prevSideways := fun i => i.elim0,
    prevRawHeading := 0, prevForwardTravel := 0, prevTime := 0 }

/-- Tick input for a one-forward-wheel rig: wheel read `r`, imu heading
read `ih`, gyro read `ig`, wall-clock time `t`. -/
noncomputable def inpOne (r : Option ℝ) (ih ig : Option ℝ) (t : ℝ) : TickInput 1 0 :=
  { forwardRead := fun _ => r, sidewaysRead := fun i => i.elim0,
    imuHeading := ih, imuGyro := ig, now := t }

/-- Tick input for a two-forward-wheel rig with successful wheel reads
`r0`, `r1`. -/
noncomputable def inpPair (r0 r1 : ℝ) (ih ig : Option ℝ) (t : ℝ) : TickInput 2 0 :=
  { forwardRead := fun i => some (![r0, r1] i), sidewaysRead := fun i => i.elim0,
    imuHeading := ih, imuGyro := ig, now := t }

/-- Rig with one forward wheel at offset 0, no sideways wheels, and an
inertial sensor. -/
noncomputable def cfgOneImu : RigConfig 1 0 :=
  { forwardOffsets := fun _ => 0, sidewaysOffsets := fun i => i.elim0, hasImu := true }

/-- Rig with the parallel forward pair at offsets −0.2 m / +0.2 m, no
sideways wheels, and an inertial sensor. -/
noncomputable def cfgPairImu : RigConfig 2 0 :=
  { forwardOffsets := ![-0.2, 0.2], sidewaysOffsets := fun i => i.elim0, hasImu := true }

/-- Rig with the parallel forward pair at offsets −0.2 m / +0.2 m, no
sideways wheels, no inertial sensor (the §8 concrete scenario). -/
noncomputable def cfgPairNoImu : RigConfig 2 0 :=
  { forwardOffsets := ![-0.2, 0.2], sidewaysOffsets := fun i => i.elim0, hasImu := false }

/-- Rig with two forward wheels both at offset 0 (track width 0), no
sideways wheels, no inertial sensor. -/
noncomputable def cfgZeroPair : RigConfig 2 0 :=
  { forwardOffsets := ![0, 0], sidewaysOffsets := fun i => i.elim0, hasImu := false }

/-- The state `TrackingRig::new` hands to the spawned task for
`cfgPairNoImu` started at the origin with both wheel travels zero. -/
noncomputable def stPairNoImu : SysState 2 0 :=
  { mode := .running, loop := loopPair false, data := dataZero }

/-- Published outcome of the §8 concrete-scenario tick on `cfgPairNoImu`
(left wheel travels 0.05 m, right 0.07 m). -/
noncomputable def outC6 : LoopState 2 0 × TrackingData :=
  publishResult cfgPairNoImu (inpPair 0.05 0.07 none none 1) (loopPair false) dataZero
    ![0.05, 0.07] (fun i => i.elim0) ((![(0.05 : ℝ), 0.07] 1 - ![(0.05 : ℝ), 0.07] 0) / 0.4)
    false

/-- Published outcome of a tick on `cfgOneImu` where the imu heading read
succeeds with −0.1 rad but the gyro-rate read fails. -/
noncomputable def outC7 : LoopState 1 0 × TrackingData :=
  publishResult cfgOneImu (inpOne (some 0) (some (-0.1)) none 1) (loopOne true 0) dataZero
    (fun _ => 0) (fun i => i.elim0) (-(-0.1)) true

/-- Published outcome of a tick on `cfgOneImu` at constant heading π/2
while the forward wheel advances 1 m. -/
noncomputable def outC8 : LoopState 1 0 × TrackingData :=
  publishResult cfgOneImu (inpOne (some 1) (some (-(π / 2))) none 1) (loopOne true (π / 2))
    dataZero (fun _ => 1) (fun i => i.elim0) (-(-(π / 2))) true

/-! ### Arithmetic facts about the IEEE remainder -/

theorem roundHalfEven_of_abs_lt (q : ℝ) (h : |q| < 1 / 2) : roundHalfEven q = 0 := by
  rcases le_or_lt 0 q with hq | hq
  · have hq1 : q < 1 / 2 := lt_of_abs_lt h
    have hfl : ⌊q⌋ = 0 := by
      rw [Int.floor_eq_zero_iff]
      exact ⟨hq, by linarith⟩
    have hfr : Int.fract q = q := by
      rw [Int.fract, hfl]; push_cast; ring
    rw [roundHalfEven, if_pos (by rw [hfr]; exact hq1), hfl]
  · have hq1 : -(1 / 2) < q := neg_lt_of_abs_lt h
    have hfl : ⌊q⌋ = -1 := by
      rw [Int.floor_eq_iff]
      push_cast
      exact ⟨by linarith, by linarith⟩
    have hfr : Int.fract q = q + 1 := by
      rw [Int.fract, hfl]; push_cast; ring
    have h2 : ¬Int.fract q < 1 / 2 := by rw [hfr]; push_neg; linarith
    have h3 : 1 / 2 < Int.fract q := by rw [hfr]; linarith
    rw [roundHalfEven, if_neg h2, if_pos h3, hfl]
    ring

theorem abs_sub_roundHalfEven_le (q : ℝ) : |q - roundHalfEven q| ≤ 1 / 2 := by
  have hfr0 : (0 : ℝ) ≤ Int.fract q := Int.fract_nonneg q
  have hfr1 : Int.fract q < 1 := Int.fract_lt_one q
  have e : Int.fract q = q - ⌊q⌋ := rfl
  rw [roundHalfEven]
  split_ifs with h1 h2 h3 <;> push_cast <;> rw [abs_le] <;>
    exact ⟨by linarith, by linarith⟩

theorem deltaHeading_eq_sub (raw prev : ℝ) (h : |raw - prev| < π) :
    deltaHeading raw prev = raw - prev := by
  have h2π : (0 : ℝ) < 2 * π := by positivity
  have hq : |(raw - prev) / (2 * π)| < 1 / 2 := by
    rw [abs_div, abs_of_pos h2π, div_lt_div_iff h2π (by norm_num : (0 : ℝ) < 2)]
    linarith
  rw [deltaHeading, QAngle.remainder, ieeeRemainder, roundHalfEven_of_abs_lt _ hq]
  push_cast
  ring

theorem deltaHeading_self (h : ℝ) : deltaHeading h h = 0 := by
  rw [deltaHeading_eq_sub h h (by simpa using pi_pos)]
  ring

/-! ### Evaluation helpers for wheel reads and pair detection -/

theorem readAll_someF {n : ℕ} (f : Fin n → ℝ) : readAll (fun i => some (f i)) = some f := by
  simp [readAll]

theorem readAll_isNone {n : ℕ} (reads : Fin n → Option ℝ) (i : Fin n)
    (h : reads i = none) : readAll reads = none := by
  rw [readAll, dif_neg]
  intro hall
  have hi := hall i
  rw [h] at hi
  simp at hi

theorem readAll_fin0 (reads : Fin 0 → Option ℝ) : readAll reads = some (fun i => i.elim0) := by
  rw [readAll, dif_pos (fun i => i.elim0)]
  congr
  funext i
  exact i.elim0

theorem findParallel_single (o : ℝ) : findParallelForwardIndices ![o] = none := by
  rw [findParallelForwardIndices, show (List.finRange 1) = [0] from by decide]
  simp [List.findSome?]

theorem findParallel_pair :
    findParallelForwardIndices ![(-0.2 : ℝ), 0.2] = some (0, 1) := by
  rw [findParallelForwardIndices, show (List.finRange 2) = [0, 1] from by decide]
  simp only [List.findSome?_cons, List.findSome?_nil]
  norm_num [Fin.lt_def]

theorem findParallel_zeros :
    findParallelForwardIndices ![(0 : ℝ), 0] = some (1, 0) := by
  rw [findParallelForwardIndices, show (List.finRange 2) = [0, 1] from by decide]
  simp only [List.findSome?_cons, List.findSome?_nil]
  norm_num [Fin.lt_def]

theorem cfgOneImu_parallel : cfgOneImu.parallelIndices = none := by
  show findParallelForwardIndices (fun _ => (0 : ℝ)) = none
  rw [show (fun _ => (0 : ℝ)) = ![(0 : ℝ)] from by funext i; fin_cases i <;> rfl]
  exact findParallel_single 0

theorem cfgPairImu_parallel : cfgPairImu.parallelIndices = some (0, 1) :=
  findParallel_pair

theorem cfgPairNoImu_parallel : cfgPairNoImu.parallelIndices = some (0, 1) :=
  findParallel_pair

theorem cfgZeroPair_parallel : cfgZeroPair.parallelIndices = some (1, 0) :=
  findParallel_zeros

/-! ### Branch lemmas for one loop iteration -/

theorem tickStep_panicF {N U : ℕ} (cfg : RigConfig N U) (inp : TickInput N U)
    (s : LoopState N U) (d : TrackingData) (hF : readAll inp.forwardRead = none) :
    tickStep cfg inp s d = .panic := by
  rw [tickStep, hF]

theorem tickStep_panicS {N U : ℕ} (cfg : RigConfig N U) (inp : TickInput N U)
    (s : LoopState N U) (d : TrackingData) (ft : Fin N → ℝ)
    (hF : readAll inp.forwardRead = some ft) (hS : readAll inp.sidewaysRead = none) :
    tickStep cfg inp s d = .panic := by
  rw [tickStep, hF, hS]

theorem tickStep_untrusted_ok {N U : ℕ} (cfg : RigConfig N U) (inp : TickInput N U)
    (s : LoopState N U) (d : TrackingData) (ft : Fin N → ℝ) (st : Fin U → ℝ) (h : ℝ)
    (hF : readAll inp.forwardRead = some ft) (hS : readAll inp.sidewaysRead = some st)
    (hT : s.imuTrusted = false)
    (hcrh : computeRawHeading none cfg.parallelIndices ft cfg.forwardOffsets = .ok h) :
    tickStep cfg inp s d = .publish (publishResult cfg inp s d ft st h false) := by
  simp [tickStep, hF, hS, hT, hcrh]

theorem tickStep_trusted_ok {N U : ℕ} (cfg : RigConfig N U) (inp : TickInput N U)
    (s : LoopState N U) (d : TrackingData) (ft : Fin N → ℝ) (st : Fin U → ℝ) (h : ℝ)
    (hF : readAll inp.forwardRead = some ft) (hS : readAll inp.sidewaysRead = some st)
    (hT : s.imuTrusted = true) (hH : inp.imuHeading = some h) :
    tickStep cfg inp s d = .publish (publishResult cfg inp s d ft st (-h) true) := by
  simp [tickStep, hF, hS, hT, hH, computeRawHeading]

theorem tickStep_trusted_fallback {N U : ℕ} (cfg : RigConfig N U) (inp : TickInput N U)
    (s : LoopState N U) (d : TrackingData) (ft : Fin N → ℝ) (st : Fin U → ℝ) (f : ℝ)
    (hF : readAll inp.forwardRead = some ft) (hS : readAll inp.sidewaysRead = some st)
    (hT : s.imuTrusted = true) (hH : inp.imuHeading = none)
    (hfb : (cfg.parallelIndices.bind fun p => wheelHeading ft cfg.forwardOffsets p.1 p.2) =
      some f) :
    tickStep cfg inp s d = .publish (publishResult cfg inp s d ft st f false) := by
  simp [tickStep, hF, hS, hT, hH, computeRawHeading, hfb]

theorem tickStep_trusted_nofallback {N U : ℕ} (cfg : RigConfig N U) (inp : TickInput N U)
    (s : LoopState N U) (d : TrackingData) (ft : Fin N → ℝ) (st : Fin U → ℝ)
    (hF : readAll inp.forwardRead = some ft) (hS : readAll inp.sidewaysRead = some st)
    (hT : s.imuTrusted = true) (hH : inp.imuHeading = none)
    (hfb : (cfg.parallelIndices.bind fun p => wheelHeading ft cfg.forwardOffsets p.1 p.2) =
      none) :
    tickStep cfg inp s d = .halt := by
  simp [tickStep, hF, hS, hT, hH, computeRawHeading, hfb]

theorem tickStep_untrusted_rotary {N U : ℕ} (cfg : RigConfig N U) (inp : TickInput N U)
    (s : LoopState N U) (d : TrackingData) (ft : Fin N → ℝ) (st : Fin U → ℝ)
    (hF : readAll inp.forwardRead = some ft) (hS : readAll inp.sidewaysRead = some st)
    (hT : s.imuTrusted = false)
    (hcrh : computeRawHeading none cfg.parallelIndices ft cfg.forwardOffsets =
      .error .rotary) :
    tickStep cfg inp s d = .skip s := by
  simp [tickStep, hF, hS, hT, hcrh]

theorem sysStep_running {N U : ℕ} (cfg : RigConfig N U) (inp : TickInput N U)
    (st : SysState N U) (hm : st.mode = .running) :
    sysStep cfg inp st =
      match tickStep cfg inp st.loop st.data with
      | .panic => { st with mode := .panicked }
      | .halt => { st with mode := .halted }
      | .skip s' => { st with loop := s' }
      | .publish out => { mode := .running, loop := out.1, data := out.2 } := by
  rw [sysStep, hm]

theorem sysStep_absorb {N U : ℕ} (cfg : RigConfig N U) (inp : TickInput N U)
    (st : SysState N U) (hm : st.mode ≠ .running) : sysStep cfg inp st = st := by
  rw [sysStep]
  match hmode : st.mode with
  | .running => exact absurd hmode hm
  | .halted => rfl
  | .panicked => rfl

theorem sysRun_absorb {N U : ℕ} (cfg : RigConfig N U) (st : SysState N U)
    (inps : List (TickInput N U)) (hm : st.mode ≠ .running) : sysRun cfg st inps = st := by
  induction inps with
  | nil => rfl
  | cons inp rest ih => rw [sysRun, sysStep_absorb cfg inp st hm, ih]

theorem publishResult_rawHeading {N U : ℕ} (cfg : RigConfig N U) (inp : TickInput N U)
    (s : LoopState N U) (d : TrackingData) (ft : Fin N → ℝ) (st : Fin U → ℝ)
    (raw : ℝ) (b : Bool) : (publishResult cfg inp s d ft st raw b).2.rawHeading = raw := by
  simp [publishResult]

theorem publishResult_imuTrusted {N U : ℕ} (cfg : RigConfig N U) (inp : TickInput N U)
    (s : LoopState N U) (d : TrackingData) (ft : Fin N → ℝ) (st : Fin U → ℝ)
    (raw : ℝ) (b : Bool) : (publishResult cfg inp s d ft st raw b).1.imuTrusted = b := by
  simp [publishResult]

/-- Inverting a published tick: the outcome is exactly the `publishResult`
for the wheel travels read this tick, the published raw heading and the
post-resolution imu trust. -/
theorem tickStep_publish_inv {N U : ℕ} (cfg : RigConfig N U) (inp : TickInput N U)
    (s : LoopState N U) (d : TrackingData) (ft : Fin N → ℝ) (st : Fin U → ℝ)
    (out : LoopState N U × TrackingData)
    (hF : readAll inp.forwardRead = some ft) (hS : readAll inp.sidewaysRead = some st)
    (hp : tickStep cfg inp s d = .publish out) :
    out = publishResult cfg inp s d ft st out.2.rawHeading out.1.imuTrusted := by
  simp only [tickStep, hF, hS] at hp
  cases hcrh : computeRawHeading (if s.imuTrusted = true then some inp.imuHeading else none)
      cfg.parallelIndices ft cfg.forwardOffsets with
  | ok h =>
    rw [hcrh] at hp
    simp only [TickOutcome.publish.injEq] at hp
    rw [← hp, publishResult_rawHeading, publishResult_imuTrusted]
  | error e =>
    cases e with
    | imu fb =>
      cases fb with
      | some f =>
        rw [hcrh] at hp
        simp only [TickOutcome.publish.injEq] at hp
        rw [← hp, publishResult_rawHeading, publishResult_imuTrusted]
      | none =>
        rw [hcrh] at hp
        simp at hp
    | rotary =>
      rw [hcrh] at hp
      split_ifs at hp <;> simp at hp

/-- Inverting a skipped tick: a `skip` arises only from the two `continue`
arms, which at most clear the imu trust flag and touch nothing else. -/
theorem tickStep_skip_inv {N U : ℕ} (cfg : RigConfig N U) (inp : TickInput N U)
    (s : LoopState N U) (d : TrackingData) (s' : LoopState N U)
    (hp : tickStep cfg inp s d = .skip s') :
    s'.prevForward = s.prevForward ∧ s'.prevSideways = s.prevSideways ∧
    s'.prevRawHeading = s.prevRawHeading ∧ s'.prevForwardTravel = s.prevForwardTravel ∧
    s'.prevTime = s.prevTime := by
  cases hF : readAll inp.forwardRead with
  | none => rw [tickStep, hF] at hp; simp at hp
  | some ft =>
    cases hS : readAll inp.sidewaysRead with
    | none => rw [tickStep, hF, hS] at hp; simp at hp
    | some st =>
      simp only [tickStep, hF, hS] at hp
      cases hcrh : computeRawHeading (if s.imuTrusted = true then some inp.imuHeading else none)
          cfg.parallelIndices ft cfg.forwardOffsets with
      | ok h => rw [hcrh] at hp; simp at hp
      | error e =>
        cases e with
        | imu fb =>
          cases fb with
          | some f => rw [hcrh] at hp; simp at hp
          | none => rw [hcrh] at hp; simp at hp
        | rotary =>
          rw [hcrh] at hp
          split_ifs at hp <;>
            simp only [TickOutcome.skip.injEq] at hp <;> rw [← hp] <;>
            exact ⟨rfl, rfl, rfl, rfl, rfl⟩

/-! ### wheelHeading and computeRawHeading evaluations -/

theorem wheelHeading_some_eq {N : ℕ} (t o : Fin N → ℝ) (l r : Fin N) (h : ℝ)
    (hw : wheelHeading t o l r = some h) : h = (t r - t l) / |o r - o l| := by
  simp only [wheelHeading] at hw
  by_cases htw : |o r - o l| = 0
  · rw [if_pos htw] at hw
    exact absurd hw (by simp)
  · rw [if_neg htw] at hw
    exact (Option.some.inj hw).symm

theorem wheelHeading_pm02 (t : Fin 2 → ℝ) :
    wheelHeading t ![(-0.2 : ℝ), 0.2] 0 1 = some ((t 1 - t 0) / 0.4) := by
  simp only [wheelHeading]
  rw [show |(![(-0.2 : ℝ), 0.2] 1 - ![(-0.2 : ℝ), 0.2] 0)| = 0.4 from by
    rw [show (![(-0.2 : ℝ), 0.2] 1 - ![(-0.2 : ℝ), 0.2] 0) = 0.4 from by norm_num]
    rw [abs_of_pos] ; norm_num]
  norm_num

theorem wheelHeading_zeroPair (t : Fin 2 → ℝ) :
    wheelHeading t ![(0 : ℝ), 0] 1 0 = none := by
  simp [wheelHeading]

theorem crh_pairNoImu (t : Fin 2 → ℝ) :
    computeRawHeading none cfgPairNoImu.parallelIndices t cfgPairNoImu.forwardOffsets =
      .ok ((t 1 - t 0) / 0.4) := by
  rw [cfgPairNoImu_parallel]
  show computeRawHeading none (some (0, 1)) t ![(-0.2 : ℝ), 0.2] = _
  simp only [computeRawHeading, wheelHeading_pm02]

theorem crh_zeroPair (t : Fin 2 → ℝ) :
    computeRawHeading none cfgZeroPair.parallelIndices t cfgZeroPair.forwardOffsets =
      .error .rotary := by
  rw [cfgZeroPair_parallel]
  show computeRawHeading none (some (1, 0)) t ![(0 : ℝ), 0] = _
  simp only [computeRawHeading, wheelHeading_zeroPair]

/-- Exhaustive case analysis of a tick once the imu is distrusted: the
loop panics on a failed read, halts when no pair exists, skips on a
rotary failure (leaving the state untouched), or publishes a heading that
`compute_raw_heading` obtained from the wheel pair. -/
theorem tickStep_untrusted_cases {N U : ℕ} (cfg : RigConfig N U) (inp : TickInput N U)
    (s : LoopState N U) (d : TrackingData) (hT : s.imuTrusted = false) :
    tickStep cfg inp s d = .panic ∨ tickStep cfg inp s d = .halt ∨
    tickStep cfg inp s d = .skip s ∨
    ∃ ft sr raw, readAll inp.forwardRead = some ft ∧ readAll inp.sidewaysRead = some sr ∧
      computeRawHeading none cfg.parallelIndices ft cfg.forwardOffsets = .ok raw ∧
      tickStep cfg inp s d = .publish (publishResult cfg inp s d ft sr raw false) := by
  cases hF : readAll inp.forwardRead with
  | none => exact Or.inl (tickStep_panicF _ _ _ _ hF)
  | some ft =>
    cases hS : readAll inp.sidewaysRead with
    | none => exact Or.inl (tickStep_panicS _ _ _ _ ft hF hS)
    | some sr =>
      cases hcrh : computeRawHeading none cfg.parallelIndices ft cfg.forwardOffsets with
      | ok raw =>
        refine Or.inr (Or.inr (Or.inr ⟨ft, sr, raw, ?_, ?_, ?_, ?_⟩))
        · rfl
        · rfl
        · exact hcrh
        · exact tickStep_untrusted_ok cfg inp s d ft sr raw hF hS hT hcrh
      | error e =>
        cases e with
        | rotary =>
          exact Or.inr (Or.inr (Or.inl
            (tickStep_untrusted_rotary _ _ _ _ _ _ hF hS hT hcrh)))
        | imu fb =>
          cases fb with
          | none =>
            refine Or.inr (Or.inl ?_)
            simp [tickStep, hF, hS, hT, hcrh]
          | some f =>
            exfalso
            rcases hpar : cfg.parallelIndices with _ | ⟨l, r⟩
            · simp [computeRawHeading, hpar] at hcrh
            · cases hwh : wheelHeading ft cfg.forwardOffsets l r with
              | none => simp [computeRawHeading, hpar, hwh] at hcrh
              | some hh => simp [computeRawHeading, hpar, hwh] at hcrh

/-! ### Claim theorems -/

/-- Claim C1, counterexample: on a tick of the fusion loop in which the
single forward wheel's encoder read fails, the outcome is a panic (the
`unwrap` in `TrackingWheel::distance` aborts the task), not a skipped tick
with a recoverable error. -/
theorem c1_wheel_read_failure_counterexample :
    tickStep cfgOneImu (inpOne none none none 1) (loopOne true 0) dataZero = .panic ∧
    (sysStep cfgOneImu (inpOne none none none 1)
      ⟨.running, loopOne true 0, dataZero⟩).mode = .panicked := by
  have hF : readAll (inpOne none none none 1).forwardRead = none :=
    readAll_isNone _ 0 rfl
  refine ⟨tickStep_panicF _ _ _ _ hF, ?_⟩
  rw [sysStep_running _ _ _ rfl, tickStep_panicF _ _ _ _ hF]

/-- Claim C1, amended: a failed wheel-encoder read during a tick makes the
fusion task panic (crash) instead of signalling a recoverable error; no
snapshot is written on that tick, and since the task never runs again the
previously published snapshot is what readers keep seeing. -/
theorem c1_wheel_read_failure_amended :
    (∀ (N U : ℕ) (cfg : RigConfig N U) (inp : TickInput N U) (s : LoopState N U)
      (d : TrackingData) (i : Fin N), inp.forwardRead i = none →
        tickStep cfg inp s d = .panic) ∧
    (∀ (N U : ℕ) (cfg : RigConfig N U) (inp : TickInput N U) (s : LoopState N U)
      (d : TrackingData) (j : Fin U), inp.sidewaysRead j = none →
        (∀ i, inp.forwardRead i ≠ none) → tickStep cfg inp s d = .panic) ∧
    (∀ (N U : ℕ) (cfg : RigConfig N U) (inp : TickInput N U) (st : SysState N U)
      (i : Fin N), st.mode = .running → inp.forwardRead i = none →
        sysStep cfg inp st = { st with mode := .panicked }) ∧
    (∀ (N U : ℕ) (cfg : RigConfig N U) (st : SysState N U)
      (inps : List (TickInput N U)), st.mode = .panicked → sysRun cfg st inps = st) := by
  refine ⟨?_, ?_, ?_, ?_⟩
  · intro N U cfg inp s d i hi
    exact tickStep_panicF _ _ _ _ (readAll_isNone _ i hi)
  · intro N U cfg inp s d j hj hall
    have hsome : ∀ i, (inp.forwardRead i).isSome := by
      intro i
      cases hv : inp.forwardRead i with
      | none => exact absurd hv (hall i)
      | some v => rfl
    refine tickStep_panicS _ _ _ _ (fun i => (inp.forwardRead i).get (hsome i)) ?_
      (readAll_isNone _ j hj)
    rw [readAll, dif_pos hsome]
  · intro N U cfg inp st i hm hi
    rw [sysStep_running _ _ _ hm, tickStep_panicF _ _ _ _ (readAll_isNone _ i hi)]
  · intro N U cfg st inps hm
    exact sysRun_absorb _ _ _ (by rw [hm]; decide)

/-- Claim C1, amended, witness: the panic conjuncts instantiated on the
one-wheel rig with a failing encoder read. -/
theorem c1_wheel_read_failure_amended_witness :
    sysStep cfgOneImu (inpOne none none none 1) ⟨.running, loopOne true 0, dataZero⟩ =
      ⟨.panicked, loopOne true 0, dataZero⟩ ∧
    sysRun cfgOneImu ⟨.panicked, loopOne true 0, dataZero⟩
      [inpOne (some 1) (some 2) (some 3) 2] = ⟨.panicked, loopOne true 0, dataZero⟩ :=
  ⟨c1_wheel_read_failure_amended.2.2.1 1 0 cfgOneImu (inpOne none none none 1)
      ⟨.running, loopOne true 0, dataZero⟩ 0 rfl rfl,
   c1_wheel_read_failure_amended.2.2.2 1 0 cfgOneImu ⟨.panicked, loopOne true 0, dataZero⟩
      [inpOne (some 1) (some 2) (some 3) 2] rfl⟩

/-- Claim C2, code bug: `TrackingWheel::distance` multiplies the (already
circumference-scaled) value by π a second time. For a custom wheel of
diameter 1 m, gearing 1 and one full encoder turn (2π rad) the code yields
`2π³ ≈ 62 m`; the specified `angle × circumference / gearing` yields
`2π² ≈ 19.7 m` reading the angle in radians, or `π ≈ 3.14 m` (the physical
circumference) reading it in turns. -/
theorem c2_distance_extra_pi :
    TrackingWheel.distance (.custom 1) 1 (2 * π) = 2 * π ^ 3 ∧
    2 * π ^ 3 ≠ (2 * π) * (1 * π) / 1 ∧
    2 * π ^ 3 ≠ 1 * (1 * π) / 1 := by
  refine ⟨?_, ?_, ?_⟩
  · show OmniWheel.size (.custom 1) * π * π * (2 * π) / 1 = 2 * π ^ 3
    show (1 : ℝ) * π * π * (2 * π) / 1 = 2 * π ^ 3
    ring
  · intro h
    nlinarith [pi_gt_three, sq_nonneg π]
  · intro h
    nlinarith [pi_gt_three, sq_nonneg π]

/-- Claim C3, counterexample: for the raw-heading step from 0 to −π the
IEEE remainder returns −π itself (the quotient −1/2 rounds to the even
integer 0), which lies outside the claimed half-open interval (−π, π]. -/
theorem c3_wrap_counterexample :
    deltaHeading (-π) 0 = -π ∧ deltaHeading (-π) 0 ∉ Set.Ioc (-π) π := by
  have hval : deltaHeading (-π) 0 = -π := by
    have hq : (-π - 0) / (2 * π) = -(1 / 2) := by
      rw [sub_zero]
      field_simp
      ring
    have hfl : ⌊(-(1 / 2) : ℝ)⌋ = -1 := by
      rw [Int.floor_eq_iff]
      norm_num
    have hfr : Int.fract (-(1 / 2) : ℝ) = 1 / 2 := by
      rw [Int.fract, hfl]
      norm_num
    have hr : roundHalfEven (-(1 / 2)) = 0 := by
      rw [roundHalfEven, if_neg (by rw [hfr]; norm_num), if_neg (by rw [hfr]; norm_num),
        if_neg (by rw [hfl]; decide)]
      rw [hfl]
      ring
    rw [deltaHeading, QAngle.remainder, ieeeRemainder, hq, hr]
    push_cast
    ring
  refine ⟨hval, ?_⟩
  rw [hval, Set.mem_Ioc]
  push_neg
  intro hlt
  exact absurd hlt (lt_irrefl _)

/-- Claim C3, amended: the per-tick heading delta is the difference
`heading_now − heading_prev` reduced by an exact multiple of 2π into the
closed interval [−π, π] (shortest arc); when the difference is an exact
odd multiple of π the round-to-even tie rule may return −π, so the
half-open interval (−π, π] is not guaranteed. The 350°→10° step still
resolves to +20°. -/
theorem c3_wrap_amended :
    (∀ raw prev : ℝ, deltaHeading raw prev ∈ Set.Icc (-π) π ∧
      ∃ k : ℤ, deltaHeading raw prev = (raw - prev) + 2 * π * k) ∧
    deltaHeading (10 * (π / 180)) (350 * (π / 180)) = 20 * (π / 180) := by
  constructor
  · intro raw prev
    have h2π : (0 : ℝ) < 2 * π := by positivity
    have hb := abs_sub_roundHalfEven_le ((raw - prev) / (2 * π))
    have hδ : deltaHeading raw prev =
        2 * π * ((raw - prev) / (2 * π) -
          roundHalfEven ((raw - prev) / (2 * π))) := by
      rw [deltaHeading, QAngle.remainder, ieeeRemainder]
      field_simp
    constructor
    · have habs : |deltaHeading raw prev| ≤ π := by
        rw [hδ, abs_mul, abs_of_pos h2π]
        have h2 := mul_le_mul_of_nonneg_left hb (le_of_lt h2π)
        linarith
      exact Set.mem_Icc.mpr (abs_le.mp habs)
    · refine ⟨-roundHalfEven ((raw - prev) / (2 * π)), ?_⟩
      rw [deltaHeading, QAngle.remainder, ieeeRemainder]
      push_cast
      ring
  · have hq : (10 * (π / 180) - 350 * (π / 180)) / (2 * π) = -(17 / 18) := by
      field_simp
      ring
    have hfl : ⌊(-(17 / 18) : ℝ)⌋ = -1 := by
      rw [Int.floor_eq_iff]
      norm_num
    have hfr : Int.fract (-(17 / 18) : ℝ) = 1 / 18 := by
      rw [Int.fract, hfl]
      norm_num
    have hr : roundHalfEven (-(17 / 18)) = -1 := by
      rw [roundHalfEven, if_pos (by rw [hfr]; norm_num), hfl]
    rw [deltaHeading, QAngle.remainder, ieeeRemainder, hq, hr]
    push_cast
    ring

/-- Claim C4, confirmed: once the inertial read fails (with a wheel-pair
fallback available) the tick publishes with the imu demoted; a demoted imu
stays demoted across skips and publishes; with the imu demoted the tick
outcome does not depend on the imu inputs at all (the source is never read
again, successful or not); and every published heading then comes from the
parallel wheel pair. -/
theorem c4_fallback_permanent :
    (∀ (N U : ℕ) (cfg : RigConfig N U) (inp : TickInput N U) (s : LoopState N U)
        (d : TrackingData) (ft : Fin N → ℝ) (sr : Fin U → ℝ) (f : ℝ),
      readAll inp.forwardRead = some ft → readAll inp.sidewaysRead = some sr →
      s.imuTrusted = true → inp.imuHeading = none →
      (cfg.parallelIndices.bind fun p => wheelHeading ft cfg.forwardOffsets p.1 p.2) =
        some f →
      tickStep cfg inp s d = .publish (publishResult cfg inp s d ft sr f false)) ∧
    (∀ (N U : ℕ) (cfg : RigConfig N U) (inp : TickInput N U) (s : LoopState N U)
        (d : TrackingData), s.imuTrusted = false →
      (∀ s', tickStep cfg inp s d = .skip s' → s'.imuTrusted = false) ∧
      (∀ out, tickStep cfg inp s d = .publish out → out.1.imuTrusted = false)) ∧
    (∀ (N U : ℕ) (cfg : RigConfig N U) (inp : TickInput N U) (s : LoopState N U)
        (d : TrackingData) (h g : Option ℝ), s.imuTrusted = false →
      tickStep cfg { inp with imuHeading := h, imuGyro := g } s d = tickStep cfg inp s d) ∧
    (∀ (N U : ℕ) (cfg : RigConfig N U) (inp : TickInput N U) (s : LoopState N U)
        (d : TrackingData) (ft : Fin N → ℝ) (out : LoopState N U × TrackingData),
      s.imuTrusted = false → readAll inp.forwardRead = some ft →
      tickStep cfg inp s d = .publish out →
      ∃ l r, cfg.parallelIndices = some (l, r) ∧
        wheelHeading ft cfg.forwardOffsets l r = some out.2.rawHeading) := by
  refine ⟨?_, ?_, ?_, ?_⟩
  · intro N U cfg inp s d ft sr f hF hS hT hH hfb
    exact tickStep_trusted_fallback cfg inp s d ft sr f hF hS hT hH hfb
  · intro N U cfg inp s d hT
    rcases tickStep_untrusted_cases cfg inp s d hT with hc | hc | hc |
      ⟨ft, sr, raw, hF, hS, hcrh, hc⟩
    all_goals constructor
    · intro s' hp; rw [hc] at hp; exact absurd hp (by simp)
    · intro out hp; rw [hc] at hp; exact absurd hp (by simp)
    · intro s' hp; rw [hc] at hp; exact absurd hp (by simp)
    · intro out hp; rw [hc] at hp; exact absurd hp (by simp)
    · intro s' hp
      rw [hc] at hp
      simp only [TickOutcome.skip.injEq] at hp
      rw [← hp, hT]
    · intro out hp; rw [hc] at hp; exact absurd hp (by simp)
    · intro s' hp; rw [hc] at hp; exact absurd hp (by simp)
    · intro out hp
      rw [hc] at hp
      simp only [TickOutcome.publish.injEq] at hp
      rw [← hp, publishResult_imuTrusted]
  · intro N U cfg inp s d h g hT
    have hfr : ({ inp with imuHeading := h, imuGyro := g } : TickInput N U).forwardRead =
        inp.forwardRead := rfl
    have hsr : ({ inp with imuHeading := h, imuGyro := g } : TickInput N U).sidewaysRead =
        inp.sidewaysRead := rfl
    cases hF : readAll inp.forwardRead with
    | none =>
      rw [tickStep_panicF _ _ _ _ (hfr ▸ hF), tickStep_panicF _ _ _ _ hF]
    | some ft =>
      cases hS : readAll inp.sidewaysRead with
      | none =>
        rw [tickStep_panicS _ _ _ _ ft (hfr ▸ hF) (hsr ▸ hS),
          tickStep_panicS _ _ _ _ ft hF hS]
      | some sr =>
        simp only [tickStep, hfr, hsr, hF, hS, hT]
        cases hcrh : computeRawHeading none cfg.parallelIndices ft cfg.forwardOffsets with
        | ok raw => simp [hcrh, publishResult, angularVelocityOf]
        | error e =>
          cases e with
          | rotary => simp [hcrh]
          | imu fb =>
            cases fb with
            | none => simp [hcrh]
            | some f => simp [hcrh, publishResult, angularVelocityOf]
  · intro N U cfg inp s d ft out hT hF hp
    rcases tickStep_untrusted_cases cfg inp s d hT with hc | hc | hc |
      ⟨ft', sr, raw, hF', hS, hcrh, hc⟩
    · rw [hc] at hp; exact absurd hp (by simp)
    · rw [hc] at hp; exact absurd hp (by simp)
    · rw [hc] at hp; exact absurd hp (by simp)
    · have hft : ft' = ft := Option.some.inj (hF'.symm.trans hF)
      subst hft
      rw [hc] at hp
      simp only [TickOutcome.publish.injEq] at hp
      rcases hpar : cfg.parallelIndices with _ | ⟨l, r⟩
      · rw [hpar] at hcrh
        simp [computeRawHeading] at hcrh
      · refine ⟨l, r, rfl, ?_⟩
        rw [hpar] at hcrh
        cases hwh : wheelHeading ft' cfg.forwardOffsets l r with
        | none => simp [computeRawHeading, hwh] at hcrh
        | some hh =>
          have hraw : hh = raw := by
            have := hcrh
            simp [computeRawHeading, hwh] at this
            exact this
          rw [← hp, publishResult_rawHeading, hraw]

/-- Claim C4, witness: on the ±0.2 m pair rig with a trusted imu whose
heading read fails, the tick publishes with the imu demoted and the
wheel-pair heading (0.07 − 0.05)/0.4. -/
theorem c4_fallback_permanent_witness :
    tickStep cfgPairImu (inpPair 0.05 0.07 none none 1) (loopPair true) dataZero =
      .publish (publishResult cfgPairImu (inpPair 0.05 0.07 none none 1) (loopPair true)
        dataZero ![0.05, 0.07] (fun i => i.elim0)
        ((![(0.05 : ℝ), 0.07] 1 - ![(0.05 : ℝ), 0.07] 0) / 0.4) false) :=
  c4_fallback_permanent.1 2 0 cfgPairImu (inpPair 0.05 0.07 none none 1) (loopPair true)
    dataZero ![0.05, 0.07] (fun i => i.elim0) _ (readAll_someF _) (readAll_fin0 _) rfl rfl
    (by
      rw [cfgPairImu_parallel]
      show wheelHeading ![(0.05 : ℝ), 0.07] ![(-0.2 : ℝ), 0.2] 0 1 =
        some ((![(0.05 : ℝ), 0.07] 1 - ![(0.05 : ℝ), 0.07] 0) / 0.4)
      exact wheelHeading_pm02 _)

/-- Claim C5, confirmed: when the trusted inertial read fails on a tick
and no wheel-pair fallback estimate exists, the task returns: the system
moves to the halted mode with the snapshot untouched, and a halted system
never changes again, so no snapshot is published on that tick or any
later one. -/
theorem c5_unrecoverable_halt :
    (∀ (N U : ℕ) (cfg : RigConfig N U) (inp : TickInput N U) (st : SysState N U)
        (ft : Fin N → ℝ) (sr : Fin U → ℝ),
      st.mode = .running → st.loop.imuTrusted = true → inp.imuHeading = none →
      readAll inp.forwardRead = some ft → readAll inp.sidewaysRead = some sr →
      (cfg.parallelIndices.bind fun p => wheelHeading ft cfg.forwardOffsets p.1 p.2) =
        none →
      sysStep cfg inp st = { st with mode := .halted }) ∧
    (∀ (N U : ℕ) (cfg : RigConfig N U) (st : SysState N U)
        (inps : List (TickInput N U)),
      st.mode = .halted → sysRun cfg st inps = st) := by
  constructor
  · intro N U cfg inp st ft sr hm hT hH hF hS hfb
    rw [sysStep_running _ _ _ hm, tickStep_trusted_nofallback _ _ _ _ ft sr hF hS hT hH hfb]
  · intro N U cfg st inps hm
    exact sysRun_absorb _ _ _ (by rw [hm]; decide)

/-- Claim C5, witness: the one-wheel rig (no parallel pair) with a failed
imu heading read halts on that tick with the snapshot unchanged, and the
halted rig absorbs any further tick inputs. -/
theorem c5_unrecoverable_halt_witness :
    sysStep cfgOneImu (inpOne (some 0) none none 1) ⟨.running, loopOne true 0, dataZero⟩ =
      ⟨.halted, loopOne true 0, dataZero⟩ ∧
    sysRun cfgOneImu ⟨.halted, loopOne true 0, dataZero⟩
      [inpOne (some 0) none none 1, inpOne (some 0) (some 1) none 2] =
      ⟨.halted, loopOne true 0, dataZero⟩ :=
  ⟨c5_unrecoverable_halt.1 1 0 cfgOneImu (inpOne (some 0) none none 1)
      ⟨.running, loopOne true 0, dataZero⟩ (fun _ => 0) (fun i => i.elim0) rfl rfl rfl
      (readAll_someF _) (readAll_fin0 _) (by rw [cfgOneImu_parallel]; rfl),
   c5_unrecoverable_halt.2 1 0 cfgOneImu ⟨.halted, loopOne true 0, dataZero⟩
      [inpOne (some 0) none none 1, inpOne (some 0) (some 1) none 2] rfl⟩

/-- Claim C6, confirmed: with the imu distrusted/absent, every published
raw heading equals `(right_travel − left_travel) / track_width` for the
detected parallel pair; and in the §8 concrete scenario (offsets ∓0.2 m,
travels 0→0.05 m and 0→0.07 m, no imu) construction succeeds, the heading
delta is 0.05 rad and the published pose heading is exactly 0.05 rad. -/
theorem c6_wheel_pair_heading :
    (∀ (N U : ℕ) (cfg : RigConfig N U) (inp : TickInput N U) (s : LoopState N U)
        (d : TrackingData) (ft : Fin N → ℝ) (out : LoopState N U × TrackingData)
        (l r : Fin N),
      s.imuTrusted = false → readAll inp.forwardRead = some ft →
      cfg.parallelIndices = some (l, r) → tickStep cfg inp s d = .publish out →
      out.2.rawHeading =
        (ft r - ft l) / |cfg.forwardOffsets r - cfg.forwardOffsets l|) ∧
    rigNew ⟨0, 0, 0⟩ cfgPairNoImu (fun _ => 0) (fun i => i.elim0) none 0 =
      some stPairNoImu ∧
    deltaHeading 0.05 0 = 0.05 ∧
    (sysStep cfgPairNoImu (inpPair 0.05 0.07 none none 1) stPairNoImu).data.pose.heading =
      0.05 := by
  refine ⟨?_, ?_, ?_, ?_⟩
  · intro N U cfg inp s d ft out l r hT hF hpar hp
    rcases tickStep_untrusted_cases cfg inp s d hT with hc | hc | hc |
      ⟨ft', sr, raw, hF', hS, hcrh, hc⟩
    · rw [hc] at hp; exact absurd hp (by simp)
    · rw [hc] at hp; exact absurd hp (by simp)
    · rw [hc] at hp; exact absurd hp (by simp)
    · have hft : ft' = ft := Option.some.inj (hF'.symm.trans hF)
      subst hft
      rw [hc] at hp
      simp only [TickOutcome.publish.injEq] at hp
      rw [hpar] at hcrh
      cases hwh : wheelHeading ft' cfg.forwardOffsets l r with
      | none => simp [computeRawHeading, hwh] at hcrh
      | some hh =>
        have hraw : hh = raw := by
          have h2 := hcrh
          simp [computeRawHeading, hwh] at h2
          exact h2
        have hform := wheelHeading_some_eq ft' cfg.forwardOffsets l r hh hwh
        rw [← hp, publishResult_rawHeading, ← hraw, hform]
  · rw [rigNew]
    rw [if_neg (by norm_num)]
    rw [if_neg (by
      rw [cfgPairNoImu_parallel]
      intro hand
      exact absurd hand.2 (by simp))]
    simp only [show (if cfgPairNoImu.hasImu = true then some (none : Option ℝ) else none) =
      none from rfl, crh_pairNoImu]
    simp [stPairNoImu, loopPair, dataZero, Except.toOption,
      show cfgPairNoImu.hasImu = false from rfl]
  · rw [deltaHeading_eq_sub 0.05 0 (by
      rw [sub_zero, abs_of_pos (by norm_num : (0 : ℝ) < 0.05)]
      linarith [pi_gt_three])]
    norm_num
  · have hpub := tickStep_untrusted_ok cfgPairNoImu (inpPair 0.05 0.07 none none 1)
      stPairNoImu.loop stPairNoImu.data ![0.05, 0.07] (fun i => i.elim0)
      ((![(0.05 : ℝ), 0.07] 1 - ![(0.05 : ℝ), 0.07] 0) / 0.4)
      (readAll_someF _) (readAll_fin0 _) rfl (crh_pairNoImu _)
    rw [sysStep_running _ _ _ rfl, hpub]
    show (publishResult _ _ _ _ _ _ _ _).2.pose.heading = 0.05
    simp [publishResult, stPairNoImu, dataZero]
    norm_num

/-- Claim C6, witness: the general wheel-pair formula instantiated on the
§8 scenario tick. -/
theorem c6_wheel_pair_heading_witness :
    outC6.2.rawHeading =
      (![(0.05 : ℝ), 0.07] 1 - ![(0.05 : ℝ), 0.07] 0) /
        |cfgPairNoImu.forwardOffsets 1 - cfgPairNoImu.forwardOffsets 0| :=
  c6_wheel_pair_heading.1 2 0 cfgPairNoImu (inpPair 0.05 0.07 none none 1) (loopPair false)
    dataZero ![0.05, 0.07] outC6 0 1 rfl (readAll_someF _) cfgPairNoImu_parallel
    (tickStep_untrusted_ok cfgPairNoImu (inpPair 0.05 0.07 none none 1) (loopPair false)
      dataZero ![0.05, 0.07] (fun i => i.elim0) _ (readAll_someF _) (readAll_fin0 _) rfl
      (crh_pairNoImu _))

/-- Claim C7, counterexample: with the inertial source trusted, a
successful heading read (raw heading 0.1 rad after the sign flip) but a
failed gyro-rate read, the published angular velocity is the
`unwrap_or(0.0)` fallback 0 — not `delta_heading / dt = 0.1 / 1`. -/
theorem c7_angular_velocity_counterexample :
    (sysStep cfgOneImu (inpOne (some 0) (some (-0.1)) none 1)
      ⟨.running, loopOne true 0, dataZero⟩).data.angularVelocity = 0 ∧
    (sysStep cfgOneImu (inpOne (some 0) (some (-0.1)) none 1)
      ⟨.running, loopOne true 0, dataZero⟩).data.rawHeading = 0.1 ∧
    (sysStep cfgOneImu (inpOne (some 0) (some (-0.1)) none 1)
      ⟨.running, loopOne true 0, dataZero⟩).loop.imuTrusted = true ∧
    deltaHeading 0.1 0 = 0.1 ∧ (0.1 : ℝ) / 1 ≠ 0 := by
  have hpub := tickStep_trusted_ok cfgOneImu (inpOne (some 0) (some (-0.1)) none 1)
    (loopOne true 0) dataZero (fun _ => 0) (fun i => i.elim0) (-0.1)
    (readAll_someF _) (readAll_fin0 _) rfl rfl
  have hstep : sysStep cfgOneImu (inpOne (some 0) (some (-0.1)) none 1)
      ⟨.running, loopOne true 0, dataZero⟩ =
      ⟨.running, (publishResult cfgOneImu (inpOne (some 0) (some (-0.1)) none 1)
        (loopOne true 0) dataZero (fun _ => 0) (fun i => i.elim0) (-(-0.1)) true).1,
      (publishResult cfgOneImu (inpOne (some 0) (some (-0.1)) none 1)
        (loopOne true 0) dataZero (fun _ => 0) (fun i => i.elim0) (-(-0.1)) true).2⟩ := by
    rw [sysStep_running _ _ _ rfl, hpub]
  refine ⟨?_, ?_, ?_, ?_, by norm_num⟩
  · rw [hstep]
    simp [publishResult, angularVelocityOf, inpOne]
  · rw [hstep, publishResult_rawHeading]
    norm_num
  · rw [hstep, publishResult_imuTrusted]
  · rw [deltaHeading_eq_sub 0.1 0 (by
      rw [sub_zero, abs_of_pos (by norm_num : (0 : ℝ) < 0.1)]
      linarith [pi_gt_three])]
    norm_num

/-- Claim C7, amended: the published angular velocity equals
`angularVelocityOf` of the post-resolution imu trust, the gyro read, the
heading delta and dt; concretely it is the gyro rate when the imu is
still trusted and the rate read succeeds, 0 when the imu is trusted but
the rate read fails, and `delta_heading / dt` (for dt > 0) only when the
imu is distrusted or absent. -/
theorem c7_angular_velocity_amended :
    (∀ (N U : ℕ) (cfg : RigConfig N U) (inp : TickInput N U) (s : LoopState N U)
        (d : TrackingData) (ft : Fin N → ℝ) (sr : Fin U → ℝ)
        (out : LoopState N U × TrackingData),
      readAll inp.forwardRead = some ft → readAll inp.sidewaysRead = some sr →
      tickStep cfg inp s d = .publish out →
      out.2.angularVelocity = angularVelocityOf out.1.imuTrusted inp.imuGyro
        (deltaHeading out.2.rawHeading s.prevRawHeading) (inp.now - s.prevTime)) ∧
    (∀ (g δ dt : ℝ), angularVelocityOf true (some g) δ dt = g) ∧
    (∀ (δ dt : ℝ), angularVelocityOf true none δ dt = 0) ∧
    (∀ (gy : Option ℝ) (δ dt : ℝ), 0 < dt → angularVelocityOf false gy δ dt = δ / dt) := by
  refine ⟨?_, ?_, ?_, ?_⟩
  · intro N U cfg inp s d ft sr out hF hS hp
    have hinv := tickStep_publish_inv cfg inp s d ft sr out hF hS hp
    conv_lhs => rw [hinv]
    simp [publishResult]
  · intro g δ dt
    simp [angularVelocityOf]
  · intro δ dt
    simp [angularVelocityOf]
  · intro gy δ dt hdt
    simp [angularVelocityOf, hdt]

/-- Claim C7, amended, witness: the publish-link conjunct instantiated on
the gyro-failure tick, plus a concrete δ/dt instance. -/
theorem c7_angular_velocity_amended_witness :
    outC7.2.angularVelocity = angularVelocityOf outC7.1.imuTrusted
      (inpOne (some 0) (some (-0.1)) none 1).imuGyro
      (deltaHeading outC7.2.rawHeading (loopOne true 0).prevRawHeading)
      ((inpOne (some 0) (some (-0.1)) none 1).now - (loopOne true 0).prevTime) ∧
    angularVelocityOf false none 0.3 2 = 0.3 / 2 :=
  ⟨c7_angular_velocity_amended.1 1 0 cfgOneImu (inpOne (some 0) (some (-0.1)) none 1)
      (loopOne true 0) dataZero (fun _ => 0) (fun i => i.elim0) outC7
      (readAll_someF _) (readAll_fin0 _)
      (tickStep_trusted_ok cfgOneImu (inpOne (some 0) (some (-0.1)) none 1)
        (loopOne true 0) dataZero (fun _ => 0) (fun i => i.elim0) (-0.1)
        (readAll_someF _) (readAll_fin0 _) rfl rfl),
   c7_angular_velocity_amended.2.2.2 none 0.3 2 (by norm_num)⟩

/-- Claim C8, counterexample: a rig with zero sideways wheels, heading
held at π/2 and the forward wheel advancing 1 m publishes pose.y = 1: the
y component does change (forward motion is projected through
`sin(avg_heading)`), refuting "pose.y never changes". -/
theorem c8_pose_y_counterexample :
    (sysStep cfgOneImu (inpOne (some 1) (some (-(π / 2))) none 1)
      ⟨.running, loopOne true (π / 2), dataZero⟩).data.pose.y = 1 ∧
    dataZero.pose.y = 0 ∧ ((1 : ℝ) ≠ 0) := by
  have hpub := tickStep_trusted_ok cfgOneImu (inpOne (some 1) (some (-(π / 2))) none 1)
    (loopOne true (π / 2)) dataZero (fun _ => 1) (fun i => i.elim0) (-(π / 2))
    (readAll_someF _) (readAll_fin0 _) rfl rfl
  have hstep : sysStep cfgOneImu (inpOne (some 1) (some (-(π / 2))) none 1)
      ⟨.running, loopOne true (π / 2), dataZero⟩ =
      ⟨.running, outC8.1, outC8.2⟩ := by
    rw [sysStep_running _ _ _ rfl, hpub]
    rfl
  refine ⟨?_, rfl, by norm_num⟩
  rw [hstep]
  show outC8.2.pose.y = 1
  rw [outC8]
  have hδ : deltaHeading (π / 2) (π / 2) = 0 := deltaHeading_self _
  simp [publishResult, hδ, localOf, wheelLocalComponent, avgHeadingOf, dataZero, loopOne,
    Fin.sum_univ_succ]

/-- Claim C8, amended: with zero sideways wheels the body-frame lateral
displacement `local_y` is always 0, and each published tick changes
pose.y by exactly `local_x · sin(avg_heading)`; pose.y is therefore
unchanged on ticks where `sin(avg_heading) = 0` (e.g. heading held at a
multiple of π), but it does change under forward motion at other
headings. -/
theorem c8_zero_sideways_amended :
    (∀ (δ : ℝ) (t p o : Fin 0 → ℝ), localOf δ t p o = 0) ∧
    (∀ (N : ℕ) (cfg : RigConfig N 0) (inp : TickInput N 0) (s : LoopState N 0)
        (d : TrackingData) (ft : Fin N → ℝ) (out : LoopState N 0 × TrackingData),
      readAll inp.forwardRead = some ft → tickStep cfg inp s d = .publish out →
      out.2.pose.y = d.pose.y +
        localOf (deltaHeading out.2.rawHeading s.prevRawHeading) ft s.prevForward
            cfg.forwardOffsets *
          Real.sin (avgHeadingOf out.2.rawHeading
            (deltaHeading out.2.rawHeading s.prevRawHeading) d.headingOffset)) ∧
    (∀ (N : ℕ) (cfg : RigConfig N 0) (inp : TickInput N 0) (s : LoopState N 0)
        (d : TrackingData) (ft : Fin N → ℝ) (out : LoopState N 0 × TrackingData),
      readAll inp.forwardRead = some ft → tickStep cfg inp s d = .publish out →
      Real.sin (avgHeadingOf out.2.rawHeading
        (deltaHeading out.2.rawHeading s.prevRawHeading) d.headingOffset) = 0 →
      out.2.pose.y = d.pose.y) := by
  have hy : ∀ (N : ℕ) (cfg : RigConfig N 0) (inp : TickInput N 0) (s : LoopState N 0)
      (d : TrackingData) (ft : Fin N → ℝ) (out : LoopState N 0 × TrackingData),
      readAll inp.forwardRead = some ft → tickStep cfg inp s d = .publish out →
      out.2.pose.y = d.pose.y +
        localOf (deltaHeading out.2.rawHeading s.prevRawHeading) ft s.prevForward
            cfg.forwardOffsets *
          Real.sin (avgHeadingOf out.2.rawHeading
            (deltaHeading out.2.rawHeading s.prevRawHeading) d.headingOffset) := by
    intro N cfg inp s d ft out hF hp
    have hinv := tickStep_publish_inv cfg inp s d ft (fun i => i.elim0) out hF
      (readAll_fin0 _) hp
    conv_lhs => rw [hinv]
    simp [publishResult, localOf]
  refine ⟨?_, hy, ?_⟩
  · intro δ t p o
    simp [localOf]
  · intro N cfg inp s d ft out hF hp hsin
    rw [hy N cfg inp s d ft out hF hp, hsin]
    ring

/-- Claim C8, amended, witness: the per-tick y increment formula
instantiated on the π/2-heading tick. -/
theorem c8_zero_sideways_amended_witness :
    outC8.2.pose.y = dataZero.pose.y +
      localOf (deltaHeading outC8.2.rawHeading (loopOne true (π / 2)).prevRawHeading)
          (fun _ => 1) (loopOne true (π / 2)).prevForward cfgOneImu.forwardOffsets *
        Real.sin (avgHeadingOf outC8.2.rawHeading
          (deltaHeading outC8.2.rawHeading (loopOne true (π / 2)).prevRawHeading)
          dataZero.headingOffset) :=
  c8_zero_sideways_amended.2.1 1 cfgOneImu (inpOne (some 1) (some (-(π / 2))) none 1)
    (loopOne true (π / 2)) dataZero (fun _ => 1) outC8 (readAll_someF _)
    (tickStep_trusted_ok cfgOneImu (inpOne (some 1) (some (-(π / 2))) none 1)
      (loopOne true (π / 2)) dataZero (fun _ => 1) (fun i => i.elim0) (-(π / 2))
      (readAll_someF _) (readAll_fin0 _) rfl rfl)

/-- Claim C9, confirmed: a skipped tick (`continue`) leaves every
previous-value accumulator — prev_forward, prev_sideways,
prev_raw_heading, prev_forward_travel, prev_time — unchanged, and at
system level the published snapshot is untouched; the next successful
tick therefore computes its deltas against the pre-skip values, so travel
during skipped ticks is not dropped. -/
theorem c9_skip_preserves_accumulators :
    (∀ (N U : ℕ) (cfg : RigConfig N U) (inp : TickInput N U) (s : LoopState N U)
        (d : TrackingData) (s' : LoopState N U),
      tickStep cfg inp s d = .skip s' →
      s'.prevForward = s.prevForward ∧ s'.prevSideways = s.prevSideways ∧
      s'.prevRawHeading = s.prevRawHeading ∧ s'.prevForwardTravel = s.prevForwardTravel ∧
      s'.prevTime = s.prevTime) ∧
    (∀ (N U : ℕ) (cfg : RigConfig N U) (inp : TickInput N U) (st : SysState N U)
        (s' : LoopState N U),
      st.mode = .running → tickStep cfg inp st.loop st.data = .skip s' →
      sysStep cfg inp st = { st with loop := s' }) := by
  constructor
  · intro N U cfg inp s d s' hp
    exact tickStep_skip_inv cfg inp s d s' hp
  · intro N U cfg inp st s' hm hp
    rw [sysStep_running _ _ _ hm, hp]

/-- Claim C9, witness: the accumulator-preservation conjuncts
instantiated on a concretely skipped tick (the zero-track-width rig). -/
theorem c9_skip_preserves_accumulators_witness :
    ((loopPair false).prevForward = (loopPair false).prevForward ∧
     (loopPair false).prevSideways = (loopPair false).prevSideways ∧
     (loopPair false).prevRawHeading = (loopPair false).prevRawHeading ∧
     (loopPair false).prevForwardTravel = (loopPair false).prevForwardTravel ∧
     (loopPair false).prevTime = (loopPair false).prevTime) ∧
    sysStep cfgZeroPair (inpPair 0 0 none none 1)
      ⟨.running, loopPair false, dataZero⟩ = ⟨.running, loopPair false, dataZero⟩ :=
  ⟨c9_skip_preserves_accumulators.1 2 0 cfgZeroPair (inpPair 0 0 none none 1)
      (loopPair false) dataZero (loopPair false)
      (tickStep_untrusted_rotary cfgZeroPair (inpPair 0 0 none none 1) (loopPair false)
        dataZero ![0, 0] (fun i => i.elim0) (readAll_someF _) (readAll_fin0 _) rfl
        (crh_zeroPair _)),
   c9_skip_preserves_accumulators.2 2 0 cfgZeroPair (inpPair 0 0 none none 1)
      ⟨.running, loopPair false, dataZero⟩ (loopPair false) rfl
      (tickStep_untrusted_rotary cfgZeroPair (inpPair 0 0 none none 1) (loopPair false)
        dataZero ![0, 0] (fun i => i.elim0) (readAll_someF _) (readAll_fin0 _) rfl
        (crh_zeroPair _))⟩

/-- For the zero-track-width pair rig every reachable step leaves the
shared snapshot and the task state untouched (each tick either panics on
a bad read or skips on `HeadingError::Rotary`). -/
theorem sysRun_zeroPair_frozen (inps : List (TickInput 2 0)) :
    ∀ st : SysState 2 0, st.loop.imuTrusted = false →
      (sysRun cfgZeroPair st inps).data = st.data ∧
      (sysRun cfgZeroPair st inps).loop = st.loop := by
  induction inps with
  | nil => exact fun st _ => ⟨rfl, rfl⟩
  | cons inp rest ih =>
    intro st hT
    have hstep : (sysStep cfgZeroPair inp st).data = st.data ∧
        (sysStep cfgZeroPair inp st).loop = st.loop := by
      by_cases hm : st.mode = .running
      · cases hF : readAll inp.forwardRead with
        | none =>
          rw [sysStep_running _ _ _ hm, tickStep_panicF _ _ _ _ hF]
          exact ⟨rfl, rfl⟩
        | some ft =>
          rw [sysStep_running _ _ _ hm,
            tickStep_untrusted_rotary cfgZeroPair inp st.loop st.data ft
              (fun i => i.elim0) hF (readAll_fin0 _) hT (crh_zeroPair ft)]
          exact ⟨rfl, rfl⟩
      · rw [sysStep_absorb _ _ _ hm]
        exact ⟨rfl, rfl⟩
    have h2 := ih (sysStep cfgZeroPair inp st) (by rw [hstep.2]; exact hT)
    exact ⟨h2.1.trans hstep.1, h2.2.trans hstep.2⟩

/-- Claim C10, confirmed: with two forward wheels both at offset 0 and no
imu, `find_parallel_forward_indices` accepts the pair (offset sum 0 is
within the 0.5 m tolerance) so construction succeeds, yet the track width
is 0, so heading resolution fails with `HeadingError::Rotary` on every
tick, every well-read tick is skipped, and the published snapshot never
changes from the initial one under any input sequence. -/
theorem c10_zero_track_width :
    (∀ (origin : Pose) (iF : Fin 2 → ℝ) (iS : Fin 0 → ℝ) (t0 : ℝ),
      (rigNew origin cfgZeroPair iF iS none t0).isSome = true) ∧
    (∀ ft : Fin 2 → ℝ,
      computeRawHeading none cfgZeroPair.parallelIndices ft cfgZeroPair.forwardOffsets =
        .error .rotary) ∧
    (∀ (inp : TickInput 2 0) (s : LoopState 2 0) (d : TrackingData) (ft : Fin 2 → ℝ)
        (sr : Fin 0 → ℝ),
      readAll inp.forwardRead = some ft → readAll inp.sidewaysRead = some sr →
      s.imuTrusted = false → tickStep cfgZeroPair inp s d = .skip s) ∧
    (∀ (st : SysState 2 0) (inps : List (TickInput 2 0)),
      st.loop.imuTrusted = false → (sysRun cfgZeroPair st inps).data = st.data) := by
  refine ⟨?_, crh_zeroPair, ?_, ?_⟩
  · intro origin iF iS t0
    rw [rigNew]
    rw [if_neg (by norm_num)]
    rw [if_neg (by
      rw [cfgZeroPair_parallel]
      intro hand
      exact absurd hand.2 (by simp))]
    rfl
  · intro inp s d ft sr hF hS hT
    exact tickStep_untrusted_rotary cfgZeroPair inp s d ft sr hF hS hT (crh_zeroPair ft)
  · intro st inps hT
    exact (sysRun_zeroPair_frozen inps st hT).1

/-- Claim C10, witness: construction succeeds, a concrete tick is skipped
with the rotary error, and a concrete run leaves the snapshot at its
initial value. -/
theorem c10_zero_track_width_witness :
    (rigNew ⟨0, 0, 0⟩ cfgZeroPair (fun _ => 0) (fun i => i.elim0) none 0).isSome = true ∧
    tickStep cfgZeroPair (inpPair 1 2 none none 1) (loopPair false) dataZero =
      .skip (loopPair false) ∧
    (sysRun cfgZeroPair ⟨.running, loopPair false, dataZero⟩
      [inpPair 1 2 none none 1, inpPair 3 4 none none 2]).data = dataZero :=
  ⟨c10_zero_track_width.1 ⟨0, 0, 0⟩ (fun _ => 0) (fun i => i.elim0) 0,
   c10_zero_track_width.2.2.1 (inpPair 1 2 none none 1) (loopPair false) dataZero
      ![1, 2] (fun i => i.elim0) (readAll_someF _) (readAll_fin0 _) rfl,
   c10_zero_track_width.2.2.2 ⟨.running, loopPair false, dataZero⟩
      [inpPair 1 2 none none 1, inpPair 3 4 none none 2] rfl⟩

end Kernelvex
